import Mathlib

/-!
Shallow embedding of the filipeX tree-walking evaluator.

Source files embedded (translated function by function):
  src/src/evaluator/mod.rs      -- the evaluator: statement/expression dispatch
  src/src/runtime/context.rs    -- the scope chain (Context)
  src/src/runtime/type_system.rs-- type tags, object_to_type, has_same_type
  src/src/runtime/flstdlib.rs   -- built-in function table (filipe_range, ...)

Modelling conventions:
  - Rust i64 values are Lean Int; `+ - *` wrap to 64 bits (release-mode
    native semantics) via wrap64; `/ %` fault on a zero divisor and on
    (i64 minimum, -1), exactly the cases where Rust's i64 division and
    remainder panic in every build profile.
  - A Rust panic / process abort is the ERes.fault outcome; it carries no
    state, matching the fact that a panic bypasses the error handler.
  - The evaluator is step-indexed ("fuel"): evalAt fuel is a record of the
    mutually recursive evaluation functions, each level calling the level
    below.  Fuel exhaustion is the distinct ERes.timeout outcome; all
    claims are stated either for arbitrary fuel or with fuel large enough
    that concrete programs run to completion.
  - The Context chain from context.rs is a linked list of frames
    (innermost scope first); Rc<RefCell<_>> sharing is represented by
    explicit state passing, which is faithful for this single-threaded
    evaluator.
  - Code of the repository that is not under src/ (Environment,
    runtime_error.rs, the let/func-def/call evaluators, Display instances)
    is modelled from the spec; every such definition carries a doc comment
    starting with "Modelled from the spec:".
-/

namespace Filipe

/-- Result of one evaluation step: `timeout` is fuel exhaustion (an
artifact of the embedding), `fault` is a host-level panic or process
abort that bypasses the error handler, `ok` is normal completion. -/
inductive ERes (α : Type) where
  | timeout
  | fault
  | ok (a : α)

def ERes.bind {α β : Type} : ERes α → (α → ERes β) → ERes β
  | .timeout, _ => .timeout
  | .fault, _ => .fault
  | .ok a, f => f a

instance : Monad ERes where
  pure := ERes.ok
  bind := ERes.bind

@[simp] theorem ERes.bind_ok {α β : Type} (a : α) (f : α → ERes β) :
    (ERes.ok a >>= f) = f a := rfl

@[simp] theorem ERes.bind_fault {α β : Type} (f : α → ERes β) :
    ((ERes.fault : ERes α) >>= f) = .fault := rfl

@[simp] theorem ERes.bind_timeout {α β : Type} (f : α → ERes β) :
    ((ERes.timeout : ERes α) >>= f) = .timeout := rfl

@[simp] theorem ERes.pure_eq {α : Type} (a : α) :
    (pure a : ERes α) = ERes.ok a := rfl

/-- The `Type` enum of src/src/runtime/type_system.rs (renamed `Ty`
because `Type` is a Lean keyword). -/
inductive Ty where
  | Null
  | Void
  | Int
  | Float
  | String
  | Boolean
  | Function
  | Range
  | Array
  | TypeAnnot
  | Unknown
deriving DecidableEq, Repr

/-- Modelled from the spec: the error kinds of section 7 (runtime_error.rs
is not under src/; the kinds NameError/TypeError/ValueError/ArgumentError
are those named by the spec and used by flstdlib.rs). -/
inductive ErrorKind where
  | NameError
  | TypeError
  | ValueError
  | ArgumentError
deriving DecidableEq, Repr

/-- The RuntimeError struct of flstdlib.rs: kind plus message. -/
structure RErr where
  kind : ErrorKind
  msg : String
deriving DecidableEq, Repr

/-- The `Infix` operator enum, spellings as in the source
(`Devide`, `GratherThan`). -/
inductive InfixOp where
  | Plus
  | Minus
  | Devide
  | Multiply
  | Remainder
  | Equal
  | NotEqual
  | LessThan
  | LessOrEqual
  | GratherThan
  | GratherOrEqual
deriving DecidableEq, Repr

/-- The `Prefix` operator enum of the AST. -/
inductive PrefixOp where
  | Not
  | Plus
  | Minus
deriving DecidableEq, Repr

/-- The `Postfix` operator enum of the AST. -/
inductive PostfixOp where
  | Increment
  | Decrement
deriving DecidableEq, Repr

/-- The `Literal` variants handled by eval_literal_expr in
src/src/evaluator/mod.rs (String, Boolean, Null, Int, Float). -/
inductive Lite where
  | Str (val : String)
  | Boolean (val : Bool)
  | Null
  | Int (val : Int)
  | Float (val : Float)

mutual

/-- The `Expr` AST consumed by eval_expr in src/src/evaluator/mod.rs. -/
inductive Expr where
  | Literal (lit : Lite)
  | Identifier (name : String)
  | Call (func : Expr) (args : List Expr)
  | InfixE (lhs : Expr) (op : InfixOp) (rhs : Expr)
  | PrefixE (op : PrefixOp) (e : Expr)
  | PostfixE (e : Expr) (op : PostfixOp)
  | Assign (name : String) (e : Expr)

/-- The `Stmt` AST consumed by eval_stmt in src/src/evaluator/mod.rs.
The Let declared type is carried directly as an optional `Ty`. -/
inductive Stmt where
  | Let (name : String) (ty : Option Ty) (e : Expr)
  | Func (name : String) (params : List (String × Ty)) (body : List Stmt) (ret : Ty)
  | Return (e : Option Expr)
  | ExprS (e : Expr)
  | If (cond : Expr) (cons : List Stmt) (alt : Option (List Stmt))
  | ForLoop (cursor : String) (iterable : Expr) (block : List Stmt)

end

/-- Tags for the built-in functions registered by builtins() in
src/src/runtime/flstdlib.rs. -/
inductive BuiltIn where
  | print
  | exit
  | len
  | random
  | typeofFn
  | range
deriving DecidableEq, Repr

/-- The `Object` runtime value union.  `Range` carries start, end and step
as built by filipe_range in src/src/runtime/flstdlib.rs; `RetVal` is the
internal return-signal wrapper. -/
inductive Object where
  | Null
  | Int (val : Int)
  | Float (val : Float)
  | Str (val : String)
  | Boolean (val : Bool)
  | BuiltInFunction (f : BuiltIn)
  | UserDefinedFunction (name : String) (params : List (String × Ty))
      (body : List Stmt) (return_type : Ty)
  | RetVal (val : Object)
  | TypeObj (t : Ty)
  | Range (start : Int) (endv : Int) (step : Int)
  | ArrayObj (items : List Object) (items_type : Ty)

/-- The ObjectInfo triple stored for every binding:
(value, type tag, mutability), as in context.rs. -/
structure ObjectInfo where
  value : Object
  type_ : Ty
  is_assignable : Bool

/-- The ContextType enum of src/src/runtime/context.rs. -/
inductive CtxType where
  | Global
  | Function
  | Loop
  | IfElse
deriving DecidableEq, Repr

/-- One scope: its kind and its name-to-binding store (the HashMap of
context.rs, modelled as an association list). -/
structure Frame where
  type_ : CtxType
  store : List (String × ObjectInfo)

/-- The Context chain of src/src/runtime/context.rs: a linked list of
frames, innermost scope first, global scope last.  The Rust
`parent : Option<Rc<RefCell<Context>>>` link is the list tail. -/
abbrev Ctx := List Frame

/-- HashMap::get on the store of one frame. -/
def storeLookup (s : List (String × ObjectInfo)) (name : String) : Option ObjectInfo :=
  match s with
  | [] => none
  | (k, i) :: rest => if k = name then some i else storeLookup rest name

/-- In-place value update of one entry (HashMap::get_mut followed by
`old.value = value` in Context::mutate). -/
def storeUpdateValue : List (String × ObjectInfo) → String → Object →
    List (String × ObjectInfo)
  | [], _, _ => []
  | (k, i) :: rest, name, v =>
    if k = name then (k, { i with value := v }) :: storeUpdateValue rest name v
    else (k, i) :: storeUpdateValue rest name v

/-- Context::set: rejects when the name is already in this exact scope,
otherwise inserts the binding into this scope; returns the success flag
together with the updated chain. -/
def Ctx.set (c : Ctx) (name : String) (type_ : Ty) (value : Object)
    (is_assignable : Bool) : Bool × Ctx :=
  match c with
  | [] => (false, [])
  | f :: rest =>
    if (storeLookup f.store name).isSome then
      (false, f :: rest)
    else
      (true, { f with store := (name, ⟨value, type_, is_assignable⟩) :: f.store } :: rest)

/-- Context::mutate: walks the chain from the innermost scope; at the
first scope declaring the name, refuses if the binding is not assignable,
otherwise replaces the value in place; absent everywhere gives false. -/
def Ctx.mutate (c : Ctx) (name : String) (value : Object) : Bool × Ctx :=
  match c with
  | [] => (false, [])
  | f :: rest =>
    match storeLookup f.store name with
    | some old =>
      if !old.is_assignable then
        (false, f :: rest)
      else
        (true, { f with store := storeUpdateValue f.store name value } :: rest)
    | none =>
      let (b, rest') := Ctx.mutate rest name value
      (b, f :: rest')

/-- Context::resolve: first binding found walking from the innermost
scope outwards. -/
def Ctx.resolve (c : Ctx) (name : String) : Option ObjectInfo :=
  match c with
  | [] => none
  | f :: rest =>
    match storeLookup f.store name with
    | some i => some i
    | none => Ctx.resolve rest name

/-- Context::has: the current scope's own store only. -/
def Ctx.has (c : Ctx) (name : String) : Bool :=
  match c with
  | [] => false
  | f :: _ => (storeLookup f.store name).isSome

/-- Modelled from the spec: Environment::is_declared used by
eval_assign_expr (environment.rs is not under src/); "name must already
be declared (else name error)" resolves through the whole chain. -/
def Ctx.isDeclared (c : Ctx) (name : String) : Bool :=
  (Ctx.resolve c name).isSome

/-- Modelled from the spec: Environment::get_typeof — the type tag stored
for the name, found through the chain. -/
def Ctx.getTypeof (c : Ctx) (name : String) : Option Ty :=
  (Ctx.resolve c name).map (·.type_)

/-- Entering a nested lexical region: a fresh empty scope whose parent is
the current chain (Context::make_from / Environment::empty). -/
def Ctx.child (c : Ctx) (t : CtxType) : Ctx :=
  ⟨t, []⟩ :: c

/-- Modelled from the spec: Environment::add_entry used by
eval_range_forloop for the loop cursor; the returned flag is ignored at
the call site. -/
def Ctx.addEntry (c : Ctx) (name : String) (value : Object) (type_ : Ty)
    (is_assignable : Bool) : Ctx :=
  (Ctx.set c name type_ value is_assignable).2

/-- The name lists of every scope of the chain, innermost first; used to
express that an operation creates or removes no binding anywhere. -/
def ctxNames (c : Ctx) : List (List String) :=
  c.map (fun f => f.store.map (·.1))

/-- A second definition following the spec's words, for the refinement
part of the assignment claim.  Modelled from the spec: "on success the
binding's value is replaced in place, wherever in the chain it lives" —
replace the value in the innermost scope that declares the name and touch
nothing else. -/
def specWriteThrough (c : Ctx) (name : String) (v : Object) : Ctx :=
  match c with
  | [] => []
  | f :: rest =>
    if (storeLookup f.store name).isSome then
      { f with store := storeUpdateValue f.store name v } :: rest
    else
      f :: specWriteThrough rest name v

/-- object_to_type of src/src/runtime/type_system.rs. -/
def objectToType : Object → Ty
  | .Null => .Null
  | .Str _ => .String
  | .Boolean _ => .Boolean
  | .BuiltInFunction _ => .Function
  | .UserDefinedFunction _ _ _ _ => .Function
  | .RetVal v => objectToType v
  | .TypeObj _ => .TypeAnnot
  | .Range _ _ _ => .Range
  | .Int _ => .Int
  | .Float _ => .Float
  | .ArrayObj _ _ => .Array

/-- has_same_type of src/src/runtime/type_system.rs: exact tag equality. -/
def hasSameType (lhs rhs : Object) : Bool :=
  objectToType lhs = objectToType rhs

/-- Modelled from the spec: the Display form of each type tag (the
Display impl for `Type` is not under src/); the tags are rendered by
their enum variant names. -/
def typeName : Ty → String
  | .Null => "Null"
  | .Void => "Void"
  | .Int => "Int"
  | .Float => "Float"
  | .String => "String"
  | .Boolean => "Boolean"
  | .Function => "Function"
  | .Range => "Range"
  | .Array => "Array"
  | .TypeAnnot => "TypeAnnot"
  | .Unknown => "Unknown"

/-- Modelled from the spec: the Display form of each infix operator (the
Display impl for `Infix` is not under src/); rendered by its surface
syntax. -/
def infixName : InfixOp → String
  | .Plus => "+"
  | .Minus => "-"
  | .Devide => "/"
  | .Multiply => "*"
  | .Remainder => "%"
  | .Equal => "=="
  | .NotEqual => "!="
  | .LessThan => "<"
  | .LessOrEqual => "<="
  | .GratherThan => ">"
  | .GratherOrEqual => ">="

/-- Modelled from the spec: the evaluator state — the current scope chain,
the single-slot error handler of section 7 (runtime_error.rs is not under
src/), and the text output sink written by `print`. -/
structure St where
  env : Ctx
  err : Option RErr
  out : List String

/-- RuntimeErrorHandler::set_type_error. -/
def setTypeError (st : St) (msg : String) : St :=
  { st with err := some ⟨.TypeError, msg⟩ }

/-- RuntimeErrorHandler::set_name_error. -/
def setNameError (st : St) (msg : String) : St :=
  { st with err := some ⟨.NameError, msg⟩ }

/-- The inclusive i64 lower bound. -/
def i64Min : Int := -(2 ^ 63)

/-- x is representable as a Rust i64. -/
def i64Range (x : Int) : Prop := -(2 ^ 63) ≤ x ∧ x < 2 ^ 63

instance (x : Int) : Decidable (i64Range x) := by
  unfold i64Range; infer_instance

/-- Reduction of an unbounded integer to the i64 it denotes in two's
complement, i.e. the value Rust release-mode wrapping arithmetic
produces. -/
def wrap64 (x : Int) : Int := (x + 2 ^ 63) % 2 ^ 64 - 2 ^ 63

/-- eval_infix_int_expr of src/src/evaluator/mod.rs.  `+ - *` are native
i64 arithmetic (wrapping); `/ %` perform no zero check in the source, so
a zero divisor — and the i64-overflow pair (i64Min, -1) — is the host's
unguarded arithmetic fault, in every Rust build profile. -/
def evalInfixIntExpr (lhs_val : Int) (op : InfixOp) (rhs_val : Int) : ERes Object :=
  match op with
  | .Plus => .ok (.Int (wrap64 (lhs_val + rhs_val)))
  | .Minus => .ok (.Int (wrap64 (lhs_val - rhs_val)))
  | .Devide =>
    if rhs_val = 0 ∨ (lhs_val = i64Min ∧ rhs_val = -1) then .fault
    else .ok (.Int (lhs_val.tdiv rhs_val))
  | .Multiply => .ok (.Int (wrap64 (lhs_val * rhs_val)))
  | .Remainder =>
    if rhs_val = 0 ∨ (lhs_val = i64Min ∧ rhs_val = -1) then .fault
    else .ok (.Int (lhs_val.tmod rhs_val))
  | .Equal => .ok (.Boolean (lhs_val = rhs_val))
  | .LessThan => .ok (.Boolean (lhs_val < rhs_val))
  | .LessOrEqual => .ok (.Boolean (lhs_val ≤ rhs_val))
  | .GratherThan => .ok (.Boolean (rhs_val < lhs_val))
  | .GratherOrEqual => .ok (.Boolean (rhs_val ≤ lhs_val))
  | .NotEqual => .ok (.Boolean (lhs_val ≠ rhs_val))

/-- eval_infix_float_expr of src/src/evaluator/mod.rs (IEEE f64
arithmetic; total, Rust float operators never panic). -/
def evalInfixFloatExpr (lhs_val : Float) (op : InfixOp) (rhs_val : Float) : Object :=
  match op with
  | .Plus => .Float (lhs_val + rhs_val)
  | .Minus => .Float (lhs_val - rhs_val)
  | .Devide => .Float (lhs_val / rhs_val)
  | .Multiply => .Float (lhs_val * rhs_val)
  | .Remainder =>
    let q := lhs_val / rhs_val
    .Float (lhs_val - rhs_val * (if q < 0 then q.ceil else q.floor))
  | .Equal => .Boolean (lhs_val == rhs_val)
  | .LessThan => .Boolean (lhs_val < rhs_val)
  | .LessOrEqual => .Boolean (lhs_val ≤ rhs_val)
  | .GratherThan => .Boolean (rhs_val < lhs_val)
  | .GratherOrEqual => .Boolean (rhs_val ≤ lhs_val)
  | .NotEqual => .Boolean (!(lhs_val == rhs_val))

/-- eval_infix_string_expr of src/src/evaluator/mod.rs: only `+ == !=`
are implemented; every other operator records a TypeError in the handler
and yet returns Object::Null (not "no value"). -/
def evalInfixStringExpr (st : St) (lhs : String) (op : InfixOp) (rhs : String) :
    Object × St :=
  match op with
  | .Plus => (.Str (lhs ++ rhs), st)
  | .NotEqual => (.Boolean (lhs ≠ rhs), st)
  | .Equal => (.Boolean (lhs = rhs), st)
  | _ =>
    (.Null, setTypeError st
      ("'" ++ infixName op ++ "' operation not implemented for type string"))

/-- eval_infix_bool_expr of src/src/evaluator/mod.rs: only the six
comparisons; arithmetic records a TypeError yet returns Object::Null. -/
def evalInfixBoolExpr (st : St) (lhs_val : Bool) (op : InfixOp) (rhs_val : Bool) :
    Object × St :=
  match op with
  | .Equal => (.Boolean (lhs_val = rhs_val), st)
  | .LessThan => (.Boolean (lhs_val < rhs_val), st)
  | .LessOrEqual => (.Boolean (lhs_val ≤ rhs_val), st)
  | .GratherThan => (.Boolean (rhs_val < lhs_val), st)
  | .GratherOrEqual => (.Boolean (rhs_val ≤ lhs_val), st)
  | .NotEqual => (.Boolean (lhs_val ≠ rhs_val), st)
  | _ =>
    (.Null, setTypeError st
      ("'" ++ infixName op ++ "' operation not implemented for type boolean"))

/-- The TypeError message of eval_infix_expr for operands of differing
structural type tags (lines 296-301 of src/src/evaluator/mod.rs). -/
def infixTypeMismatchMsg (op : InfixOp) (lt rt : Ty) : String :=
  "'" ++ infixName op ++ "' operation not allowed between types "
    ++ typeName lt ++ " and " ++ typeName rt

/-- The tail of eval_infix_expr of src/src/evaluator/mod.rs (lines
295-331), acting on the two already-evaluated operands: differing tags
record a TypeError naming both tags and yield no value; otherwise the
per-type helper is dispatched; the unreachable mismatched-pattern arms
yield no value silently. -/
def evalInfixObjects (st : St) (lhs : Object) (op : InfixOp) (rhs : Object) :
    ERes (Option Object × St) :=
  if !hasSameType lhs rhs then
    .ok (none, setTypeError st
      (infixTypeMismatchMsg op (objectToType lhs) (objectToType rhs)))
  else
    match lhs with
    | .Int lval =>
      match rhs with
      | .Int rval => do
        let o ← evalInfixIntExpr lval op rval
        pure (some o, st)
      | _ => .ok (none, st)
    | .Float lval =>
      match rhs with
      | .Float rval => .ok (some (evalInfixFloatExpr lval op rval), st)
      | _ => .ok (none, st)
    | .Str lval =>
      match rhs with
      | .Str rval =>
        let (o, st') := evalInfixStringExpr st lval op rval
        .ok (some o, st')
      | _ => .ok (none, st)
    | .Boolean lval =>
      match rhs with
      | .Boolean rval =>
        let (o, st') := evalInfixBoolExpr st lval op rval
        .ok (some o, st')
      | _ => .ok (none, st)
    | _ => .ok (none, st)

/-- is_truthy of src/src/evaluator/mod.rs: Null and false are falsy, zero
numbers are falsy, everything else is truthy. -/
def isTruthy (object : Object) : Bool :=
  match object with
  | .Null | .Boolean false => false
  | .Int val => val ≠ 0
  | .Float val => !(val == 0.0)
  | _ => true

/-- eval_not_prefix of src/src/evaluator/mod.rs: a narrow table — Null
negates to true, Boolean negates, every other value becomes false; never
records an error. -/
def evalNotPrefixObj (evaluated : Object) : Option Object :=
  match evaluated with
  | .Null => some (.Boolean true)
  | .Boolean val => some (.Boolean !val)
  | _ => some (.Boolean false)

/-- eval_plus_prefix of src/src/evaluator/mod.rs. -/
def evalPlusPrefixObj (st : St) (evaluated : Object) : Option Object × St :=
  match evaluated with
  | .Int val => (some (.Int val), st)
  | .Float val => (some (.Float val), st)
  | _ => (none, setTypeError st "'+' prefix is for type number")

/-- eval_minus_prefix of src/src/evaluator/mod.rs. -/
def evalMinusPrefixObj (st : St) (evaluated : Object) : Option Object × St :=
  match evaluated with
  | .Int val => (some (.Int (wrap64 (-val))), st)
  | .Float val => (some (.Float (-val)), st)
  | _ => (none, setTypeError st "'-' prefix is for type number")

/-- The tail of eval_postfix_expr of src/src/evaluator/mod.rs: the
operand must be an Int; produces a new Int without writing it back. -/
def evalPostfixObj (st : St) (evaluated : Object) (op : PostfixOp) :
    Option Object × St :=
  match evaluated with
  | .Int old_value =>
    match op with
    | .Increment => (some (.Int (wrap64 (old_value + 1))), st)
    | .Decrement => (some (.Int (wrap64 (old_value - 1))), st)
  | _ =>
    (none, setTypeError st "postfix operation is only allowed for type 'number'")

/-- eval_literal_expr of src/src/evaluator/mod.rs. -/
def evalLiteralExpr : Lite → Object
  | .Str val => .Str val
  | .Boolean val => .Boolean val
  | .Null => .Null
  | .Int val => .Int val
  | .Float val => .Float val

/-- BuiltInFuncReturnValue of flstdlib.rs: a built-in returns either a
value or a structured error; it never touches the handler itself. -/
inductive BRV where
  | obj (o : Object)
  | err (e : RErr)

/-- The textual form filipe_print writes for one argument (Display impls
for Object are not under src/ for every variant; the numeric, string,
null and boolean arms are printed exactly as in filipe_print, the
remaining arms are modelled from the spec as fixed bracketed forms). -/
def printText (o : Object) : String :=
  match o with
  | .Int val => toString val
  | .Float val => toString val
  | .Str val => val
  | .Null => "null"
  | .BuiltInFunction _ => "[Builtin Function]"
  | .UserDefinedFunction _ _ _ _ => "[User Defined Function]"
  | .RetVal val => printText val
  | .Boolean val => toString val
  | .TypeObj t => typeName t
  | .Range _ _ _ => "[Range]"
  | .ArrayObj _ _ => "[Array]"

/-- filipe_print of flstdlib.rs: each argument's text with no separator,
then a trailing newline, as one write to the output sink; returns Null. -/
def filipePrint (st : St) (args : List ObjectInfo) : BRV × St :=
  let line := (args.map (fun a => printText a.value)).foldl (· ++ ·) "" ++ "\n"
  (.obj .Null, { st with out := st.out ++ [line] })

/-- filipe_len of flstdlib.rs: exactly one String argument gives its
length as Int; anything else is an error. -/
def filipeLen (args : List ObjectInfo) : BRV :=
  if args.length ≠ 1 then
    .err ⟨.TypeError, "'len' expects 1 arg but " ++ toString args.length
      ++ " were provided"⟩
  else
    match args with
    | ⟨.Str val, _, _⟩ :: _ => .obj (.Int val.length)
    | _ => .err ⟨.TypeError, "'len' only accepts iterable types"⟩

/-- filipe_typeof of flstdlib.rs: the statically tracked type tag of the
single argument, reified as a Type value. -/
def filipeTypeof (args : List ObjectInfo) : BRV :=
  if args.length ≠ 1 then
    .err ⟨.TypeError, "'typeof' expects 1 arg but " ++ toString args.length
      ++ " were provided"⟩
  else
    match args with
    | a :: _ => .obj (.TypeObj a.type_)
    | [] => .err ⟨.TypeError, "'typeof' expects 1 arg but 0 were provided"⟩

/-- filipe_range of flstdlib.rs: 2 or 3 Int arguments build a Range, the
step defaulting to 1; wrong arity or a non-Int argument is a TypeError
(message spellings kept as in the source). -/
def filipeRange (args : List ObjectInfo) : BRV :=
  if args.length > 3 ∨ args.length < 2 then
    .err ⟨.TypeError, "function 'range' takes 2 or 3 argus but "
      ++ toString args.length ++ " were provided"⟩
  else if args.any (fun item => item.type_ ≠ .Int) then
    .err ⟨.TypeError, "args for function 'range' must be of type number"⟩
  else
    let vals := args.map (fun item =>
      match item.value with
      | .Int x => x
      | _ => 0)
    match vals with
    | [a, b] => .obj (.Range a b 1)
    | [a, b, c] => .obj (.Range a b c)
    | _ => .err ⟨.TypeError, "function 'range' takes 2 or 3 argus"⟩

/-- Dispatch to the built-in contracts of flstdlib.rs.  `exit` terminates
the process (a non-local abort, ERes.fault); `random` draws from the
host's RNG, which has no place in this deterministic embedding and is
likewise left as an unevaluated abort — no claim concerns either. -/
def callBuiltin (st : St) (b : BuiltIn) (args : List ObjectInfo) :
    ERes (BRV × St) :=
  match b with
  | .print => .ok (filipePrint st args)
  | .exit => .fault
  | .random => .fault
  | .len => .ok (filipeLen args, st)
  | .typeofFn => .ok (filipeTypeof args, st)
  | .range => .ok (filipeRange args, st)

/-- builtins() of flstdlib.rs: the global scope's pre-seeded store, in
insertion order — the six built-in functions plus the constants true,
false and null, all non-assignable. -/
def builtinStore : List (String × ObjectInfo) :=
  [ ("print", ⟨.BuiltInFunction .print, .Function, false⟩),
    ("exit", ⟨.BuiltInFunction .exit, .Function, false⟩),
    ("len", ⟨.BuiltInFunction .len, .Function, false⟩),
    ("random", ⟨.BuiltInFunction .random, .Function, false⟩),
    ("typeof", ⟨.BuiltInFunction .typeofFn, .Function, false⟩),
    ("range", ⟨.BuiltInFunction .range, .Function, false⟩),
    ("true", ⟨.Boolean true, .Boolean, false⟩),
    ("false", ⟨.Boolean false, .Boolean, false⟩),
    ("null", ⟨.Null, .Null, false⟩) ]

/-- The record of the mutually recursive evaluation functions at one fuel
level.  Every function of level fuel+1 calls only level-fuel functions,
so the whole evaluator is plain structural recursion on the fuel. -/
structure EvalFns where
  expr : St → Expr → ERes (Option Object × St)
  stmt : St → Stmt → ERes (Option Object × St)
  block : St → List Stmt → ERes (Option Object × St)
  blockGo : St → Option Object → List Stmt → ERes (Option Object × St)
  loopGo : String → List Stmt → Nat → St → ERes (Bool × St)
  args : St → List Expr → ERes (Option (List ObjectInfo) × St)

/-- The exhausted-fuel level: every evaluation times out. -/
def fnsTimeout : EvalFns where
  expr := fun _ _ => .timeout
  stmt := fun _ _ => .timeout
  block := fun _ _ => .timeout
  blockGo := fun _ _ _ => .timeout
  loopGo := fun _ _ _ _ => .timeout
  args := fun _ _ => .timeout

/-- resolve_identfier of src/src/evaluator/mod.rs. -/
def resolveIdentifier (st : St) (name : String) : Option Object × St :=
  match Ctx.resolve st.env name with
  | some info => (some info.value, st)
  | none => (none, setNameError st ("'" ++ name ++ "' is not declared"))

/-- eval_assign_expr of src/src/evaluator/mod.rs: the name must be
declared; the evaluated value's tag must equal the stored tag (note the
source message names the old type first); the binding must be assignable
(else Context::mutate returns false and a NameError is recorded);
assignment always yields no value. -/
def evalAssignExprF (prev : EvalFns) (st : St) (name : String) (e : Expr) :
    ERes (Option Object × St) :=
  if !Ctx.isDeclared st.env name then
    .ok (none, setNameError st ("'" ++ name ++ "' is not declared"))
  else do
    let (vo, st₁) ← prev.expr st e
    match vo with
    | none => pure (none, st₁)
    | some value =>
      match Ctx.getTypeof st₁.env name with
      | none => .fault
      | some old_value_type =>
        let new_value_type := objectToType value
        if old_value_type ≠ new_value_type then
          pure (none, setTypeError st₁
            ("can't assign value of type '" ++ typeName old_value_type
              ++ "' to value of type '" ++ typeName new_value_type ++ "'"))
        else
          let (okb, env') := Ctx.mutate st₁.env name value
          if okb then
            pure (none, { st₁ with env := env' })
          else
            pure (none, setNameError { st₁ with env := env' }
              ("'" ++ name ++ "' is not assignable"))

/-- eval_infix_expr of src/src/evaluator/mod.rs: both operands are
evaluated (the right one even when the left already failed), a missing
operand value propagates as no value, then evalInfixObjects decides. -/
def evalInfixExprF (prev : EvalFns) (st : St) (lhs : Expr) (op : InfixOp)
    (rhs : Expr) : ERes (Option Object × St) := do
  let (lo, st₁) ← prev.expr st lhs
  let (ro, st₂) ← prev.expr st₁ rhs
  match lo, ro with
  | some lv, some rv => evalInfixObjects st₂ lv op rv
  | _, _ => pure (none, st₂)

/-- eval_prefix_expr of src/src/evaluator/mod.rs. -/
def evalPrefixExprF (prev : EvalFns) (st : St) (op : PrefixOp) (e : Expr) :
    ERes (Option Object × St) := do
  let (vo, st₁) ← prev.expr st e
  match vo with
  | none => pure (none, st₁)
  | some v =>
    match op with
    | .Not => pure (evalNotPrefixObj v, st₁)
    | .Plus => pure (evalPlusPrefixObj st₁ v)
    | .Minus => pure (evalMinusPrefixObj st₁ v)

/-- eval_postfix_expr of src/src/evaluator/mod.rs. -/
def evalPostfixExprF (prev : EvalFns) (st : St) (e : Expr) (op : PostfixOp) :
    ERes (Option Object × St) := do
  let (vo, st₁) ← prev.expr st e
  match vo with
  | none => pure (none, st₁)
  | some v => pure (evalPostfixObj st₁ v op)

/-- Modelled from the spec: positional parameter binding for a
user-defined call (the call evaluator is not under src/): each parameter
name is bound in the fresh call scope to the corresponding evaluated
argument at its declared type. -/
def bindParams (env : Ctx) (params : List (String × Ty))
    (args : List ObjectInfo) : Ctx :=
  match params, args with
  | (n, t) :: ps, a :: as_ => bindParams (Ctx.set env n t a.value true).2 ps as_
  | _, _ => env

/-- Modelled from the spec: eval_call_expr (evaluators/
func_call_evaluator.rs is not under src/): evaluates the callee and the
arguments; a built-in runs its native contract and a returned error is
moved into the handler by this call evaluator; a user-defined function
runs its body block in a fresh child scope, the enclosing scope being
restored afterwards, and yields the block's value — eval_block_stmt has
already unwrapped any ReturnSignal — unless the declared return type is
Void, which produces no value. -/
def evalCallExprF (prev : EvalFns) (st : St) (func : Expr) (argEs : List Expr) :
    ERes (Option Object × St) := do
  let (fo, st₁) ← prev.expr st func
  match fo with
  | none => pure (none, st₁)
  | some fval => do
    let (ao, st₂) ← prev.args st₁ argEs
    match ao with
    | none => pure (none, st₂)
    | some argInfos =>
      match fval with
      | .BuiltInFunction b => do
        let (r, st₃) ← callBuiltin st₂ b argInfos
        match r with
        | .obj o => pure (some o, st₃)
        | .err e => pure (none, { st₃ with err := some e })
      | .UserDefinedFunction _ params body return_type => do
        let callEnv := bindParams (Ctx.child st₂.env .Function) params argInfos
        let (r, st₃) ← prev.block { st₂ with env := callEnv } body
        let st₄ := { st₃ with env := st₂.env }
        match return_type with
        | .Void => pure (none, st₄)
        | _ => pure (r, st₄)
      | _ => pure (none, setTypeError st₂ "not a callable value")

/-- Modelled from the spec: argument-list evaluation for a call (the call
evaluator is not under src/): left to right; an argument producing no
value makes the whole list produce no value; each evaluated argument
carries its value and its structural type tag. -/
def evalArgsF (prev : EvalFns) (st : St) (es : List Expr) :
    ERes (Option (List ObjectInfo) × St) :=
  match es with
  | [] => .ok (some [], st)
  | e :: rest => do
    let (vo, st₁) ← prev.expr st e
    match vo with
    | none => pure (none, st₁)
    | some v => do
      let (ro, st₂) ← prev.args st₁ rest
      match ro with
      | none => pure (none, st₂)
      | some l => pure (some (⟨v, objectToType v, false⟩ :: l), st₂)

/-- eval_expr of src/src/evaluator/mod.rs: expression dispatch. -/
def evalExprF (prev : EvalFns) (st : St) (e : Expr) : ERes (Option Object × St) :=
  match e with
  | .Literal lit => .ok (some (evalLiteralExpr lit), st)
  | .Identifier name => .ok (resolveIdentifier st name)
  | .Call func argEs => evalCallExprF prev st func argEs
  | .InfixE lhs op rhs => evalInfixExprF prev st lhs op rhs
  | .PrefixE op e' => evalPrefixExprF prev st op e'
  | .PostfixE e' op => evalPostfixExprF prev st e' op
  | .Assign name e' => evalAssignExprF prev st name e'

/-- Modelled from the spec: eval_let_stmt (evaluators/let_evaluator.rs is
not under src/): evaluates the initializer; when a declared type is given
it must equal the value's structural tag (else TypeError); Context::set
rejects redeclaration in the identical scope, which is reported as a
NameError; the statement yields no value. -/
def evalLetStmtF (prev : EvalFns) (st : St) (name : String) (ty : Option Ty)
    (e : Expr) : ERes (Option Object × St) := do
  let (vo, st₁) ← prev.expr st e
  match vo with
  | none => pure (none, st₁)
  | some v =>
    let tag := objectToType v
    match ty with
    | some d =>
      if d ≠ tag then
        pure (none, setTypeError st₁
          ("can't assign value of type '" ++ typeName tag
            ++ "' to variable of type '" ++ typeName d ++ "'"))
      else
        let (okb, env') := Ctx.set st₁.env name tag v true
        if okb then pure (none, { st₁ with env := env' })
        else pure (none, setNameError { st₁ with env := env' }
          ("'" ++ name ++ "' is already declared"))
    | none =>
      let (okb, env') := Ctx.set st₁.env name tag v true
      if okb then pure (none, { st₁ with env := env' })
      else pure (none, setNameError { st₁ with env := env' }
        ("'" ++ name ++ "' is already declared"))

/-- Modelled from the spec: eval_func_def (evaluators/
func_def_evaluator.rs is not under src/): binds the name in the current
scope to a UserDefinedFunction value capturing the parameter list, body
and declared return type; no enclosing-scope snapshot is captured. -/
def evalFuncDefF (st : St) (name : String) (params : List (String × Ty))
    (body : List Stmt) (ret : Ty) : Option Object × St :=
  let (okb, env') := Ctx.set st.env name .Function
    (.UserDefinedFunction name params body ret) false
  if okb then (none, { st with env := env' })
  else (none, setNameError { st with env := env' }
    ("'" ++ name ++ "' is already declared"))

/-- eval_return of src/src/evaluator/mod.rs: the payload (Null when the
expression is absent) wrapped in the ReturnSignal RetVal. -/
def evalReturnF (prev : EvalFns) (st : St) (e : Option Expr) :
    ERes (Option Object × St) :=
  match e with
  | none => .ok (some (.RetVal .Null), st)
  | some ex => do
    let (vo, st₁) ← prev.expr st ex
    match vo with
    | some v => pure (some (.RetVal v), st₁)
    | none => pure (none, st₁)

/-- eval_if_stmt of src/src/evaluator/mod.rs: evaluates the condition; a
truthy value runs the consequence block, otherwise the alternative if
present; no child scope is created here. -/
def evalIfStmtF (prev : EvalFns) (st : St) (cond : Expr) (cons : List Stmt)
    (alt : Option (List Stmt)) : ERes (Option Object × St) := do
  let (co, st₁) ← prev.expr st cond
  match co with
  | none => pure (none, st₁)
  | some c =>
    if isTruthy c then prev.block st₁ cons
    else
      match alt with
      | some a => prev.block st₁ a
      | none => pure (none, st₁)

/-- The loop-scope environment built at the top of eval_range_forloop:
one fresh child scope for the whole loop, the cursor bound in it to the
range start as a mutable Int. -/
def loopScopeEnv (env : Ctx) (cursor : String) (start : Int) : Ctx :=
  Ctx.addEntry (Ctx.child env .Loop) cursor (.Int start) .Int true

/-- The `for _ in start..end` body of eval_range_forloop, iterated a
fixed number of times: each pass runs the block (its value is discarded),
re-reads the cursor binding — Context::resolve returning nothing would be
an unwrap panic, a non-Int value takes the early `return None` arm that
skips the scope restore (the false flag) — and puts back the old value
plus one via update_entry. -/
def rangeLoopGoF (prev : EvalFns) (cursor : String) (block : List Stmt)
    (n : Nat) (st : St) : ERes (Bool × St) :=
  match n with
  | 0 => .ok (true, st)
  | m + 1 => do
    let (_, st') ← prev.block st block
    match Ctx.resolve st'.env cursor with
    | none => .fault
    | some info =>
      match info.value with
      | .Int old_val =>
        prev.loopGo cursor block m
          { st' with env := (Ctx.mutate st'.env cursor (.Int (wrap64 (old_val + 1)))).2 }
      | _ => .ok (false, st')

/-- eval_range_forloop of src/src/evaluator/mod.rs: saves the enclosing
scope, enters the loop scope with the cursor bound to start, runs the
counted loop — the iteration count is `end - start` clamped at zero, as
for a Rust i64 range — and on normal completion restores the enclosing
scope as current; the whole loop statement yields no value. -/
def evalRangeForloopF (prev : EvalFns) (st : St) (cursor : String)
    (start endv : Int) (block : List Stmt) : ERes (Option Object × St) := do
  let stLoop := { st with env := loopScopeEnv st.env cursor start }
  let (completed, st') ← prev.loopGo cursor block (endv - start).toNat stLoop
  if completed then
    pure (none, { st' with env := st.env })
  else
    pure (none, st')

/-- eval_forloop_stmt of src/src/evaluator/mod.rs: the iterable must
evaluate to a Range (anything else is the "for loop works only with
range" TypeError); the declared step of the Range is not consulted. -/
def evalForloopStmtF (prev : EvalFns) (st : St) (cursor : String)
    (iterable : Expr) (block : List Stmt) : ERes (Option Object × St) := do
  let (io, st₁) ← prev.expr st iterable
  match io with
  | none => pure (none, st₁)
  | some obj =>
    match obj with
    | .Range start endv _ => evalRangeForloopF prev st₁ cursor start endv block
    | _ => pure (none, setTypeError st₁ "for loop works only with range (for now)")

/-- eval_stmt of src/src/evaluator/mod.rs: statement dispatch; Let and
Func yield no value at statement level. -/
def evalStmtF (prev : EvalFns) (st : St) (s : Stmt) : ERes (Option Object × St) :=
  match s with
  | .Let name ty e => do
    let (_, st') ← evalLetStmtF prev st name ty e
    pure (none, st')
  | .Func name params body ret => pure (evalFuncDefF st name params body ret)
  | .Return e => evalReturnF prev st e
  | .ExprS e => prev.expr st e
  | .If cond cons alt => evalIfStmtF prev st cond cons alt
  | .ForLoop cursor iterable block => evalForloopStmtF prev st cursor iterable block

/-- eval_block_stmt of src/src/evaluator/mod.rs: statements in order; a
ReturnSignal is unwrapped and returned at once, skipping the rest of the
block; otherwise the last produced value is kept.  No child scope is
created here. -/
def evalBlockGoF (prev : EvalFns) (st : St) (res : Option Object)
    (block : List Stmt) : ERes (Option Object × St) :=
  match block with
  | [] => .ok (res, st)
  | s :: rest => do
    let (o, st') ← prev.stmt st s
    match o with
    | some (.RetVal object) => pure (some object, st')
    | object => prev.blockGo st' object rest

/-- One fuel level of the evaluator: each component is the faithful
translation of its source function, recursive calls going through the
level below. -/
def mkFns (prev : EvalFns) : EvalFns where
  expr := evalExprF prev
  stmt := evalStmtF prev
  block := fun st block => evalBlockGoF prev st none block
  blockGo := evalBlockGoF prev
  loopGo := rangeLoopGoF prev
  args := evalArgsF prev

/-- The fuel-indexed evaluator. -/
def evalAt : Nat → EvalFns
  | 0 => fnsTimeout
  | f + 1 => mkFns (evalAt f)

/-- The initial state: the global scope pre-seeded with builtins(), no
pending error, empty output. -/
def initialSt : St := ⟨[⟨.Global, builtinStore⟩], none, []⟩

/-- Evaluator::eval of src/src/evaluator/mod.rs: top-level statements in
order; after each one a pending diagnostic aborts the program with no
result; otherwise the last statement's value is the program's result. -/
def runStmtsGo : Nat → St → Option Object → List Stmt → ERes (Option Object × St)
  | _, st, res, [] => .ok (res, st)
  | 0, _, _, _ :: _ => .timeout
  | f + 1, st, _, s :: rest => do
    let (o, st') ← (evalAt f).stmt st s
    if st'.err.isSome then pure (none, st')
    else runStmtsGo f st' o rest

/-- Run a whole program from the initial state. -/
def runProgram (fuel : Nat) (program : List Stmt) : ERes (Option Object × St) :=
  runStmtsGo fuel initialSt none program

/-- The program result, when evaluation completed. -/
def valOf : ERes (Option Object × St) → Option (Option Object)
  | .ok (o, _) => some o
  | _ => none

/-- The pending diagnostic of the final state, when evaluation completed. -/
def errOf : ERes (Option Object × St) → Option (Option RErr)
  | .ok (_, st) => some st.err
  | _ => none

/-- The output sink of the final state, when evaluation completed. -/
def outOf : ERes (Option Object × St) → Option (List String)
  | .ok (_, st) => some st.out
  | _ => none

/-- A call to the built-in `range` with integer literal arguments. -/
def rangeCall (args : List Int) : Expr :=
  .Call (.Identifier "range") (args.map (fun i => .Literal (.Int i)))

/-- The statement `print(x)`. -/
def printCursor : Stmt := .ExprS (.Call (.Identifier "print") [.Identifier "x"])

/-- The program `for x in range(1, 4) { print(x) }`. -/
def progRange14 : List Stmt := [.ForLoop "x" (rangeCall [1, 4]) [printCursor]]

/-- The program `for x in range(0, 4, 2) { print(x) }` — a range with a
declared step of 2. -/
def progRangeStep2 : List Stmt := [.ForLoop "x" (rangeCall [0, 4, 2]) [printCursor]]

/-- The program

  fn f() -> Int { for x in range(0, 2) { if (x == 1) { y }; return 7 } }
  f()

Under the spec's reading the `return 7` of the first iteration (x = 0)
ends the loop and makes the call yield 7, so the undeclared name `y` is
never reached; the second iteration running is observable as exactly the
NameError for `y`. -/
def progReturnInLoop : List Stmt :=
  [ .Func "f" []
      [ .ForLoop "x" (rangeCall [0, 2])
          [ .If (.InfixE (.Identifier "x") .Equal (.Literal (.Int 1)))
              [.ExprS (.Identifier "y")] none,
            .Return (some (.Literal (.Int 7))) ] ] .Int,
    .ExprS (.Call (.Identifier "f") []) ]

/-- The program `true = 3`: an assignment to the declared, non-assignable
builtin binding `true`, with a value of mismatched type. -/
def progAssignTrueInt : List Stmt := [.ExprS (.Assign "true" (.Literal (.Int 3)))]

/-- Substring-of relation on the character data of two strings. -/
def strHasSub (hay sub : String) : Prop := sub.data <:+: hay.data

/-! Shared lemmas about the store and the scope chain. -/

theorem storeLookup_update_self (s : List (String × ObjectInfo)) (n : String)
    (v : Object) :
    storeLookup (storeUpdateValue s n v) n
      = (storeLookup s n).map (fun i => { i with value := v }) := by
  induction s with
  | nil => rfl
  | cons p rest ih =>
    obtain ⟨k, i⟩ := p
    by_cases h : k = n
    · subst h
      simp [storeUpdateValue, storeLookup]
    · simp [storeUpdateValue, storeLookup, h, ih]

theorem storeLookup_update_other (s : List (String × ObjectInfo)) (n m : String)
    (v : Object) (h : m ≠ n) :
    storeLookup (storeUpdateValue s n v) m = storeLookup s m := by
  induction s with
  | nil => rfl
  | cons p rest ih =>
    obtain ⟨k, i⟩ := p
    by_cases hk : k = n
    · subst hk
      have : ¬ (k = m) := fun hkm => h (hkm ▸ rfl)
      simp [storeUpdateValue, storeLookup, this, ih]
    · simp [storeUpdateValue, storeLookup, hk, ih]

theorem storeNames_update (s : List (String × ObjectInfo)) (n : String)
    (v : Object) :
    (storeUpdateValue s n v).map (·.1) = s.map (·.1) := by
  induction s with
  | nil => rfl
  | cons p rest ih =>
    obtain ⟨k, i⟩ := p
    by_cases hk : k = n
    · simp [storeUpdateValue, hk, ih]
    · simp [storeUpdateValue, hk, ih]

theorem mutate_of_not_assignable (c : Ctx) (n : String) (v : Object)
    (info : ObjectInfo) (h : Ctx.resolve c n = some info)
    (ha : info.is_assignable = false) :
    Ctx.mutate c n v = (false, c) := by
  induction c with
  | nil => simp [Ctx.resolve] at h
  | cons f rest ih =>
    cases hl : storeLookup f.store n with
    | some i =>
      rw [Ctx.resolve, hl] at h
      cases h
      rw [Ctx.mutate, hl]
      simp [ha]
    | none =>
      rw [Ctx.resolve, hl] at h
      rw [Ctx.mutate, hl, ih h]

theorem mutate_of_assignable (c : Ctx) (n : String) (v : Object)
    (info : ObjectInfo) (h : Ctx.resolve c n = some info)
    (ha : info.is_assignable = true) :
    Ctx.mutate c n v = (true, specWriteThrough c n v) := by
  induction c with
  | nil => simp [Ctx.resolve] at h
  | cons f rest ih =>
    cases hl : storeLookup f.store n with
    | some i =>
      rw [Ctx.resolve, hl] at h
      cases h
      rw [Ctx.mutate, hl]
      simp [ha, specWriteThrough, hl]
    | none =>
      rw [Ctx.resolve, hl] at h
      rw [Ctx.mutate, hl, ih h]
      simp [specWriteThrough, hl]

theorem resolve_specWriteThrough_self (c : Ctx) (n : String) (v : Object)
    (info : ObjectInfo) (h : Ctx.resolve c n = some info) :
    Ctx.resolve (specWriteThrough c n v) n = some { info with value := v } := by
  induction c with
  | nil => simp [Ctx.resolve] at h
  | cons f rest ih =>
    cases hl : storeLookup f.store n with
    | some i =>
      rw [Ctx.resolve, hl] at h
      cases h
      rw [specWriteThrough]
      simp only [hl, Option.isSome_some, if_true]
      rw [Ctx.resolve]
      simp [storeLookup_update_self, hl]
    | none =>
      rw [Ctx.resolve, hl] at h
      rw [specWriteThrough]
      simp only [hl, Option.isSome_none, Bool.false_eq_true, if_false]
      rw [Ctx.resolve, hl, ih h]

theorem resolve_specWriteThrough_other (c : Ctx) (n m : String) (v : Object)
    (h : m ≠ n) :
    Ctx.resolve (specWriteThrough c n v) m = Ctx.resolve c m := by
  induction c with
  | nil => rfl
  | cons f rest ih =>
    cases hl : storeLookup f.store n with
    | some i =>
      rw [specWriteThrough]
      simp only [hl, Option.isSome_some, if_true]
      rw [Ctx.resolve, Ctx.resolve, storeLookup_update_other _ _ _ _ h]
    | none =>
      rw [specWriteThrough]
      simp only [hl, Option.isSome_none, Bool.false_eq_true, if_false]
      rw [Ctx.resolve, Ctx.resolve, ih]

theorem ctxNames_specWriteThrough (c : Ctx) (n : String) (v : Object) :
    ctxNames (specWriteThrough c n v) = ctxNames c := by
  induction c with
  | nil => rfl
  | cons f rest ih =>
    cases hl : storeLookup f.store n with
    | some i =>
      rw [specWriteThrough]
      simp only [hl, Option.isSome_some, if_true]
      simp [ctxNames, storeNames_update]
    | none =>
      rw [specWriteThrough]
      simp only [hl, Option.isSome_none, Bool.false_eq_true, if_false]
      simp only [ctxNames, List.map_cons] at *
      rw [ih]

theorem wrap64_of_range (x : Int) (h : i64Range x) : wrap64 x = x := by
  obtain ⟨h1, h2⟩ := h
  unfold wrap64
  rw [Int.emod_eq_of_lt (by omega) (by omega)]
  omega

/-! The claims. -/

/-- C4: for every pair of operand values whose structural type tags
differ, any infix operator between them records a TypeError whose message
names both tags, and the infix expression yields no value. -/
theorem infix_type_mismatch_typeerror (st : St) (lhs : Object) (op : InfixOp)
    (rhs : Object) (h : objectToType lhs ≠ objectToType rhs) :
    evalInfixObjects st lhs op rhs
      = .ok (none, setTypeError st
          (infixTypeMismatchMsg op (objectToType lhs) (objectToType rhs)))
    ∧ strHasSub (infixTypeMismatchMsg op (objectToType lhs) (objectToType rhs))
        (typeName (objectToType lhs))
    ∧ strHasSub (infixTypeMismatchMsg op (objectToType lhs) (objectToType rhs))
        (typeName (objectToType rhs)) := by
  have hb : hasSameType lhs rhs = false := by
    unfold hasSameType
    exact decide_eq_false h
  refine ⟨?_, ?_, ?_⟩
  · simp [evalInfixObjects, hb]
  · exact ⟨("'" ++ infixName op ++ "' operation not allowed between types ").data,
      (" and " ++ typeName (objectToType rhs)).data,
      by simp [infixTypeMismatchMsg, String.data_append]⟩
  · exact ⟨("'" ++ infixName op ++ "' operation not allowed between types "
        ++ typeName (objectToType lhs) ++ " and ").data, [],
      by simp [infixTypeMismatchMsg, String.data_append]⟩

/-- Witness for C4 at the concrete operands Int 1 and String "a". -/
theorem infix_type_mismatch_typeerror_witness :
    objectToType (.Int 1) ≠ objectToType (.Str "a")
    ∧ evalInfixObjects initialSt (.Int 1) .Plus (.Str "a")
        = .ok (none, setTypeError initialSt (infixTypeMismatchMsg .Plus .Int .String)) :=
  ⟨by decide,
    (infix_type_mismatch_typeerror initialSt (.Int 1) .Plus (.Str "a") (by decide)).1⟩

/-- C5 (amended): Int infix `+ - *` produce the native 64-bit (wrapping)
results; `/` is truncated division and `%` the matching remainder except
that a zero divisor — and the i64-overflow pair (minimum, -1) — is an
unguarded fatal host arithmetic fault, never a recorded diagnostic: the
fault aborts the evaluation without touching the error handler. -/
theorem int_infix_native_semantics (a b : Int) (_ha : i64Range a) (_hb : i64Range b) :
    evalInfixIntExpr a .Plus b = .ok (.Int (wrap64 (a + b)))
    ∧ evalInfixIntExpr a .Minus b = .ok (.Int (wrap64 (a - b)))
    ∧ evalInfixIntExpr a .Multiply b = .ok (.Int (wrap64 (a * b)))
    ∧ (i64Range (a + b) → evalInfixIntExpr a .Plus b = .ok (.Int (a + b)))
    ∧ (b = 0 → evalInfixIntExpr a .Devide b = .fault
        ∧ evalInfixIntExpr a .Remainder b = .fault)
    ∧ (b ≠ 0 → ¬(a = i64Min ∧ b = -1) →
        evalInfixIntExpr a .Devide b = .ok (.Int (a.tdiv b))
        ∧ evalInfixIntExpr a .Remainder b = .ok (.Int (a.tmod b)))
    ∧ (∀ st : St, b = 0 → evalInfixObjects st (.Int a) .Devide (.Int b) = .fault) := by
  refine ⟨rfl, rfl, rfl, ?_, ?_, ?_, ?_⟩
  · intro h
    simp only [evalInfixIntExpr]
    rw [wrap64_of_range _ h]
  · intro h
    subst h
    constructor <;> simp [evalInfixIntExpr]
  · intro h1 h2
    have hcond : ¬(b = 0 ∨ (a = i64Min ∧ b = -1)) := by
      rintro (hc | hc)
      · exact h1 hc
      · exact h2 hc
    constructor <;> simp [evalInfixIntExpr, hcond]
  · intro st h
    subst h
    simp [evalInfixObjects, hasSameType, objectToType, evalInfixIntExpr, ERes.bind,
      Bind.bind]

/-- Witness for C5 at a = 7, b = 2 (and the fault at divisor 0). -/
theorem int_infix_native_semantics_witness :
    i64Range 7 ∧ i64Range 2
    ∧ evalInfixIntExpr 7 .Devide 2 = .ok (.Int ((7 : Int).tdiv 2))
    ∧ evalInfixIntExpr 7 .Devide 0 = .fault :=
  ⟨by decide, by decide,
    ((int_infix_native_semantics 7 2 (by decide) (by decide)).2.2.2.2.2.1
      (by decide) (by decide)).1,
    ((int_infix_native_semantics 7 0 (by decide) (by decide)).2.2.2.2.1 rfl).1⟩

/-- Counterexample for C5 as stated: at a = i64 minimum and b = -1 the
division is a host fault, not the truncated quotient the claim promises
for every nonzero divisor. -/
theorem int_div_min_overflow_cex :
    evalInfixIntExpr i64Min .Devide (-1) = .fault
    ∧ evalInfixIntExpr i64Min .Devide (-1) ≠ .ok (.Int (Int.tdiv i64Min (-1))) := by
  have h : evalInfixIntExpr i64Min .Devide (-1) = .fault := by
    simp [evalInfixIntExpr]
  exact ⟨h, by rw [h]; intro hc; exact ERes.noConfusion hc⟩

/-- C9: the prefix operator Not is total and never records an error —
Null negates to true, Boolean negates, every other value (including
Int 5) becomes false, which does not follow the general truthiness rule
used by if (Int 5 is truthy). -/
theorem not_prefix_table :
    evalNotPrefixObj .Null = some (.Boolean true)
    ∧ (∀ b : Bool, evalNotPrefixObj (.Boolean b) = some (.Boolean !b))
    ∧ (∀ v : Object, v ≠ .Null → (∀ b : Bool, v ≠ .Boolean b) →
        evalNotPrefixObj v = some (.Boolean false))
    ∧ (∀ v : Object, ∃ b : Bool, evalNotPrefixObj v = some (.Boolean b))
    ∧ evalNotPrefixObj (.Int 5) = some (.Boolean false)
    ∧ isTruthy (.Int 5) = true
    ∧ (∀ (fu : Nat) (st st₁ : St) (e : Expr) (v : Object),
        (evalAt fu).expr st e = .ok (some v, st₁) →
        (evalAt (fu + 1)).expr st (.PrefixE .Not e) = .ok (evalNotPrefixObj v, st₁)) := by
  refine ⟨rfl, fun b => rfl, ?_, ?_, rfl, by decide, ?_⟩
  · intro v h1 h2
    cases v with
    | Null => exact absurd rfl h1
    | Boolean b => exact absurd rfl (h2 b)
    | Int _ => rfl
    | Float _ => rfl
    | Str _ => rfl
    | BuiltInFunction _ => rfl
    | UserDefinedFunction _ _ _ _ => rfl
    | RetVal _ => rfl
    | TypeObj _ => rfl
    | Range _ _ _ => rfl
    | ArrayObj _ _ => rfl
  · intro v
    cases v with
    | Null => exact ⟨true, rfl⟩
    | Boolean b => exact ⟨!b, rfl⟩
    | Int _ => exact ⟨false, rfl⟩
    | Float _ => exact ⟨false, rfl⟩
    | Str _ => exact ⟨false, rfl⟩
    | BuiltInFunction _ => exact ⟨false, rfl⟩
    | UserDefinedFunction _ _ _ _ => exact ⟨false, rfl⟩
    | RetVal _ => exact ⟨false, rfl⟩
    | TypeObj _ => exact ⟨false, rfl⟩
    | Range _ _ _ => exact ⟨false, rfl⟩
    | ArrayObj _ _ => exact ⟨false, rfl⟩
  · intro fu st st₁ e v h
    simp [evalAt, mkFns, evalExprF, evalPrefixExprF, h, ERes.bind, Bind.bind]

/-- Witness for C9 at the concrete operand String "hi". -/
theorem not_prefix_table_witness :
    evalNotPrefixObj (.Str "hi") = some (.Boolean false) :=
  not_prefix_table.2.2.1 (.Str "hi")
    (fun h => Object.noConfusion h)
    (fun _ h => Object.noConfusion h)

/-- Counterexample for C7 as stated: the program `true = 3` assigns to the
declared, non-assignable builtin binding `true`; because the value's type
also mismatches, the recorded diagnostic is a TypeError, not the
NameError the claim promises for every assignment to a non-assignable
binding. -/
theorem assign_immutable_mismatch_cex :
    errOf (runProgram 10 progAssignTrueInt)
      = some (some ⟨.TypeError,
          "can't assign value of type 'Boolean' to value of type 'Int'"⟩)
    ∧ ErrorKind.TypeError ≠ ErrorKind.NameError :=
  ⟨rfl, by decide⟩

/-- C7 (amended): an assignment whose evaluated value's tag differs from
the stored tag records a TypeError and leaves the binding (and the whole
chain) unchanged; an assignment whose tag matches but whose target
binding is non-assignable records the NameError "not assignable" and
leaves the chain unchanged. -/
theorem assign_error_cases (fu : Nat) (st st₁ : St) (name : String) (e : Expr)
    (v : Object) (info : ObjectInfo)
    (hd : Ctx.isDeclared st.env name = true)
    (he : (evalAt fu).expr st e = .ok (some v, st₁))
    (hr : Ctx.resolve st₁.env name = some info) :
    (objectToType v ≠ info.type_ →
      (evalAt (fu + 1)).expr st (.Assign name e)
        = .ok (none, setTypeError st₁
            ("can't assign value of type '" ++ typeName info.type_
              ++ "' to value of type '" ++ typeName (objectToType v) ++ "'")))
    ∧ (objectToType v = info.type_ → info.is_assignable = false →
      (evalAt (fu + 1)).expr st (.Assign name e)
        = .ok (none, setNameError st₁ ("'" ++ name ++ "' is not assignable"))) := by
  constructor
  · intro ht
    have hne : info.type_ ≠ objectToType v := fun hc => ht hc.symm
    simp [evalAt, mkFns, evalExprF, evalAssignExprF, hd, he, Ctx.getTypeof, hr,
      hne, ERes.bind, Bind.bind]
  · intro ht hm
    have hmut := mutate_of_not_assignable st₁.env name v info hr hm
    simp [evalAt, mkFns, evalExprF, evalAssignExprF, hd, he, Ctx.getTypeof, hr,
      ht.symm, hmut, ERes.bind, Bind.bind]

/-- Witness for C7: assigning the type-correct Boolean false to the
non-assignable builtin `true`. -/
theorem assign_error_cases_witness :
    (evalAt 2).expr initialSt (.Assign "true" (.Literal (.Boolean false)))
      = .ok (none, setNameError initialSt "'true' is not assignable") :=
  (assign_error_cases 1 initialSt initialSt "true" (.Literal (.Boolean false))
      (.Boolean false) ⟨.Boolean true, .Boolean, false⟩ rfl rfl rfl).2 rfl rfl

/-- C8: Context::set rejects a second declaration of a name in the
identical scope — surfaced by the let evaluator as a NameError — and
leaves the chain unchanged, while declaring the same name in a fresh
child scope succeeds and shadows the outer binding; Context::resolve
always answers from the innermost scope that declares the name. -/
theorem let_redeclare_and_shadowing :
    (∀ (f : Frame) (rest : Ctx) (name : String) (t : Ty) (v : Object) (m : Bool)
        (info : ObjectInfo),
      storeLookup f.store name = some info →
      Ctx.set (f :: rest) name t v m = (false, f :: rest))
    ∧ (∀ (fu : Nat) (st st₁ : St) (name : String) (e : Expr) (v : Object),
        (evalAt fu).expr st e = .ok (some v, st₁) →
        Ctx.has st₁.env name = true →
        (evalAt (fu + 1)).stmt st (.Let name none e)
          = .ok (none, setNameError st₁ ("'" ++ name ++ "' is already declared")))
    ∧ (∀ (c : Ctx) (ct : CtxType) (name : String) (t : Ty) (v : Object) (m : Bool),
        Ctx.set (Ctx.child c ct) name t v m
          = (true, ⟨ct, [(name, ⟨v, t, m⟩)]⟩ :: c)
        ∧ Ctx.resolve (⟨ct, [(name, ⟨v, t, m⟩)]⟩ :: c) name = some ⟨v, t, m⟩)
    ∧ (∀ (f : Frame) (rest : Ctx) (name : String) (info : ObjectInfo),
        storeLookup f.store name = some info →
        Ctx.resolve (f :: rest) name = some info)
    ∧ (∀ (f : Frame) (rest : Ctx) (name : String),
        storeLookup f.store name = none →
        Ctx.resolve (f :: rest) name = Ctx.resolve rest name) := by
  refine ⟨?_, ?_, ?_, ?_, ?_⟩
  · intro f rest name t v m info h
    simp [Ctx.set, h]
  · intro fu st st₁ name e v he hh
    cases henv : st₁.env with
    | nil => rw [henv] at hh; simp [Ctx.has] at hh
    | cons f rest =>
      rw [henv] at hh
      simp only [Ctx.has] at hh
      obtain ⟨info, hinfo⟩ := Option.isSome_iff_exists.mp hh
      have hset : Ctx.set (f :: rest) name (objectToType v) v true = (false, f :: rest) := by
        simp [Ctx.set, hinfo]
      simp only [evalAt, mkFns, evalStmtF, evalLetStmtF, he, henv, hset,
        ERes.bind_ok, ERes.pure_eq, ERes.bind]
      rw [← henv]
      simp [ERes.bind, Bind.bind]
  · intro c ct name t v m
    constructor
    · simp [Ctx.set, Ctx.child, storeLookup]
    · simp [Ctx.resolve, storeLookup]
  · intro f rest name info h
    simp [Ctx.resolve, h]
  · intro f rest name h
    simp [Ctx.resolve, h]

/-- Witness for C8: redeclaring the builtin name `true` in the global
scope is rejected with the chain unchanged. -/
theorem let_redeclare_and_shadowing_witness :
    Ctx.set [⟨.Global, builtinStore⟩] "true" .Int .Null true
      = (false, [⟨.Global, builtinStore⟩]) :=
  let_redeclare_and_shadowing.1 ⟨.Global, builtinStore⟩ [] "true" .Int .Null true
    ⟨.Boolean true, .Boolean, false⟩ rfl

/-- C6: a well-typed assignment to a declared, assignable name replaces
the binding's value in place in the innermost scope of the chain that
declares the name — write-through to the owning scope (the chain's shape
is untouched, so no copy appears in the current scope, and every other
name still resolves as before) — and the assignment itself yields no
value. -/
theorem assign_write_through (fu : Nat) (st st₁ : St) (name : String) (e : Expr)
    (v : Object) (info : ObjectInfo)
    (hd : Ctx.isDeclared st.env name = true)
    (he : (evalAt fu).expr st e = .ok (some v, st₁))
    (hr : Ctx.resolve st₁.env name = some info)
    (hm : info.is_assignable = true)
    (ht : objectToType v = info.type_) :
    (evalAt (fu + 1)).expr st (.Assign name e)
      = .ok (none, { st₁ with env := specWriteThrough st₁.env name v })
    ∧ Ctx.resolve (specWriteThrough st₁.env name v) name = some { info with value := v }
    ∧ (∀ m, m ≠ name →
        Ctx.resolve (specWriteThrough st₁.env name v) m = Ctx.resolve st₁.env m)
    ∧ ctxNames (specWriteThrough st₁.env name v) = ctxNames st₁.env := by
  refine ⟨?_, resolve_specWriteThrough_self st₁.env name v info hr,
    fun m hm' => resolve_specWriteThrough_other st₁.env name m v hm',
    ctxNames_specWriteThrough st₁.env name v⟩
  have hmut := mutate_of_assignable st₁.env name v info hr hm
  simp [evalAt, mkFns, evalExprF, evalAssignExprF, hd, he, Ctx.getTypeof, hr,
    ht.symm, hmut, ERes.bind, Bind.bind]

/-- Witness for C6: assigning Int 2 to the Int binding x that lives in
the outer of two scopes. -/
theorem assign_write_through_witness :
    (evalAt 2).expr
        ⟨[⟨.Loop, []⟩, ⟨.Global, [("x", ⟨.Int 1, .Int, true⟩)]⟩], none, []⟩
        (.Assign "x" (.Literal (.Int 2)))
      = .ok (none,
          ⟨specWriteThrough
              [⟨.Loop, []⟩, ⟨.Global, [("x", ⟨.Int 1, .Int, true⟩)]⟩] "x" (.Int 2),
            none, []⟩) :=
  (assign_write_through 1
      ⟨[⟨.Loop, []⟩, ⟨.Global, [("x", ⟨.Int 1, .Int, true⟩)]⟩], none, []⟩
      ⟨[⟨.Loop, []⟩, ⟨.Global, [("x", ⟨.Int 1, .Int, true⟩)]⟩], none, []⟩
      "x" (.Literal (.Int 2)) (.Int 2) ⟨.Int 1, .Int, true⟩
      rfl rfl rfl rfl rfl).1

/-- C2: the claim says a `return` in a for-loop body inside a function
immediately yields that value and skips later iterations.  The code drops
the block result of each loop iteration (eval_range_forloop lines
106-114), so in progReturnInLoop the second iteration (x = 1) still runs
— observable as the NameError for the undeclared `y` that only that
iteration reaches — and the call yields no value instead of 7. -/
theorem return_in_forloop_lost_bug :
    errOf (runProgram 30 progReturnInLoop)
      = some (some ⟨.NameError, "'y' is not declared"⟩)
    ∧ valOf (runProgram 30 progReturnInLoop) = some none :=
  ⟨rfl, rfl⟩

/-- Counterexample for C1 as stated: iterating `range(0, 4, 2)` — a range
with declared step 2 — prints the cursor values 0, 1, 2, 3: the loop runs
end - start = 4 times incrementing the cursor by 1 each pass, which is
neither two steps of 2 stopping at the end (0, 2) nor four increments by
the declared step (0, 2, 4, 6). -/
theorem forloop_step_ignored_cex :
    outOf (runProgram 30 progRangeStep2) = some ["0\n", "1\n", "2\n", "3\n"]
    ∧ (["0\n", "1\n", "2\n", "3\n"] : List String) ≠ ["0\n", "2\n"]
    ∧ (["0\n", "1\n", "2\n", "3\n"] : List String) ≠ ["0\n", "2\n", "4\n", "6\n"] :=
  ⟨rfl, by decide, by decide⟩

/-- C1 (amended): a for loop over a Range creates one child scope for the
whole loop with the cursor bound to the range start as a mutable Int,
executes the body exactly end - start times (clamped at zero),
increments the cursor binding by exactly 1 after each iteration — the
declared step of the Range is ignored — and on completion yields no
value with the enclosing scope restored as current; iterating
range(1, 4) binds the cursor to 1, 2, 3 in that order. -/
theorem forloop_range_behavior :
    (∀ (fu : Nat) (st st₁ st₂ : St) (cursor : String) (iterable : Expr)
        (block : List Stmt) (s e stp : Int),
      (evalAt fu).expr st iterable = .ok (some (.Range s e stp), st₁) →
      (evalAt fu).loopGo cursor block (e - s).toNat
          { st₁ with env := loopScopeEnv st₁.env cursor s } = .ok (true, st₂) →
      (evalAt (fu + 1)).stmt st (.ForLoop cursor iterable block)
        = .ok (none, { st₂ with env := st₁.env }))
    ∧ (∀ (env : Ctx) (cursor : String) (s : Int),
        Ctx.resolve (loopScopeEnv env cursor s) cursor = some ⟨.Int s, .Int, true⟩)
    ∧ (∀ (fu : Nat) (st st' : St) (cursor : String) (block : List Stmt) (n : Nat)
        (r : Option Object) (v : Int) (info : ObjectInfo),
      (evalAt fu).block st block = .ok (r, st') →
      Ctx.resolve st'.env cursor = some info →
      info.value = .Int v →
      (evalAt (fu + 1)).loopGo cursor block (n + 1) st
        = (evalAt fu).loopGo cursor block n
            { st' with env := (Ctx.mutate st'.env cursor (.Int (wrap64 (v + 1)))).2 })
    ∧ outOf (runProgram 30 progRange14) = some ["1\n", "2\n", "3\n"] := by
  refine ⟨?_, ?_, ?_, rfl⟩
  · intro fu st st₁ st₂ cursor iterable block s e stp h1 h2
    simp [evalAt, mkFns, evalStmtF, evalForloopStmtF, evalRangeForloopF, h1, h2,
      ERes.bind, Bind.bind]
  · intro env cursor s
    simp [loopScopeEnv, Ctx.addEntry, Ctx.child, Ctx.set, Ctx.resolve, storeLookup]
  · intro fu st st' cursor block n r v info h1 h2 h3
    simp [evalAt, mkFns, rangeLoopGoF, h1, h2, h3, ERes.bind, Bind.bind]

/-- Witness for C1: the loop `for x in range(1, 4) { print(x) }` from the
initial state completes with the global scope restored and the output
lines 1, 2, 3. -/
theorem forloop_range_behavior_witness :
    (evalAt 21).stmt initialSt (.ForLoop "x" (rangeCall [1, 4]) [printCursor])
      = .ok (none, ⟨[⟨.Global, builtinStore⟩], none, ["1\n", "2\n", "3\n"]⟩) :=
  forloop_range_behavior.1 20 initialSt _ _ "x" (rangeCall [1, 4]) [printCursor]
    1 4 1 rfl rfl

/-- C10: a for loop over a Range with end at most start executes the body
zero times — the iteration count (end - start).toNat is exactly zero,
never negative or wrapped — while the cursor binding is still created in
the loop scope; the scope is then discarded and the loop yields no value
with the pre-loop state intact. -/
theorem empty_range_forloop (fu : Nat) (st st₁ : St) (cursor : String)
    (iterable : Expr) (block : List Stmt) (s e stp : Int)
    (he : (evalAt fu).expr st iterable = .ok (some (.Range s e stp), st₁))
    (hle : e ≤ s) :
    (evalAt (fu + 1)).stmt st (.ForLoop cursor iterable block) = .ok (none, st₁)
    ∧ Ctx.resolve (loopScopeEnv st₁.env cursor s) cursor = some ⟨.Int s, .Int, true⟩
    ∧ (e - s).toNat = 0 := by
  have hn : (e - s).toNat = 0 := Int.toNat_eq_zero.mpr (by omega)
  refine ⟨?_, forloop_range_behavior.2.1 st₁.env cursor s, hn⟩
  cases fu with
  | zero =>
    rw [show evalAt 0 = fnsTimeout from rfl] at he
    exact absurd he (by simp [fnsTimeout])
  | succ f =>
    have he' : evalExprF (evalAt f) st iterable = .ok (some (.Range s e stp), st₁) := he
    simp [evalAt, mkFns, evalStmtF, evalForloopStmtF, evalRangeForloopF, he', hn,
      rangeLoopGoF, ERes.bind, Bind.bind]

/-- Witness for C10: `for x in range(4, 1) { print(x) }` from the initial
state runs the body zero times and yields no value with the state
unchanged. -/
theorem empty_range_forloop_witness :
    (evalAt 6).stmt initialSt (.ForLoop "x" (rangeCall [4, 1]) [printCursor])
      = .ok (none, initialSt) :=
  (empty_range_forloop 5 initialSt initialSt "x" (rangeCall [4, 1]) [printCursor]
    4 1 1 rfl (by decide)).1

end Filipe
